import Mathlib

/-!
Shallow embedding of the MParsing repository (Wildberries price parser).

Source files modelled:
- src/api/wb_api.py      (class WildberriesAPI)
- src/parsers/wb_parser.py (class WildberriesParser)

Machine model conventions:
- Time is modelled in integer milliseconds; a run starts at time 0, HTTP
  requests are instantaneous, and the clock advances only by the explicit
  time.sleep calls of the source.
- JSON values relevant to the claims are modelled with concrete structures
  (Item, Size) and response-envelope shapes (Payload); dict.get of an
  absent key is Option.none.
- The HTTP environment is an oracle: one response per issued request.
-/

namespace MParsing

/-! ### Python string helpers -/

/-- Whitespace stripped by Python str.strip (ASCII subset). -/
def pySpace (c : Char) : Bool :=
  c = ' ' || c = '\t' || c = '\n' || c = '\r' || c = '\x0b' || c = '\x0c'

/-- Python str.strip: drop whitespace from both ends. -/
def trimChars (l : List Char) : List Char :=
  ((l.dropWhile pySpace).reverse.dropWhile pySpace).reverse

/-- Match a literal at the head of a character list; on success return the
remainder.  Used to model literal parts of the regular expressions and of
str.startswith. -/
def stripLit : List Char → List Char → Option (List Char)
  | [], rest => some rest
  | _ :: _, [] => none
  | c :: cs, d :: ds => if c = d then stripLit cs ds else none

/-- Maximal digit run at the head of the list and the remainder
(the greedy behaviour of a leading regex digit class). -/
def spanDigits (l : List Char) : List Char × List Char :=
  (l.takeWhile Char.isDigit, l.dropWhile Char.isDigit)

def httpLit : List Char := "http".toList
def catLit : List Char := "/catalog/".toList
def detLit : List Char := "/detail.aspx".toList

/-- One attempted match of the regex /catalog/(\d+)/detail\.aspx at the
current position; returns the captured digit group. -/
def matchCatalogAt (l : List Char) : Option (List Char) :=
  match stripLit catLit l with
  | none => none
  | some r1 =>
    let p := spanDigits r1
    if p.1.isEmpty then none
    else
      match stripLit detLit p.2 with
      | none => none
      | some _ => some p.1

/-- re.search of /catalog/(\d+)/detail\.aspx : leftmost match. -/
def searchCatalog : List Char → Option (List Char)
  | [] => none
  | c :: t =>
    match matchCatalogAt (c :: t) with
    | some g => some g
    | none => searchCatalog t

/-- One attempted match of the regex /(\d{6,})/ at the current position. -/
def matchSlash6At (l : List Char) : Option (List Char) :=
  match l with
  | '/' :: t =>
    let p := spanDigits t
    if 6 ≤ p.1.length then
      match p.2 with
      | '/' :: _ => some p.1
      | _ => none
    else none
  | _ => none

/-- re.search of /(\d{6,})/ : leftmost match. -/
def searchSlash6 : List Char → Option (List Char)
  | [] => none
  | c :: t =>
    match matchSlash6At (c :: t) with
    | some g => some g
    | none => searchSlash6 t

/-- WildberriesAPI._extract_article_from_url (wb_api.py lines 133-154):
if the string starts with "http", try the catalog pattern, then the
slash-delimited digit-run pattern; otherwise (and when neither pattern
matches) return the stripped string. -/
def extractArticleFromUrl (a : String) : String :=
  let l := a.toList
  if (stripLit httpLit l).isSome then
    match searchCatalog l with
    | some g => String.mk g
    | none =>
      match searchSlash6 l with
      | some g => String.mk g
      | none => String.mk (trimChars l)
  else String.mk (trimChars l)

theorem dropWhile_length_le (p : Char → Bool) :
    ∀ l : List Char, (l.dropWhile p).length ≤ l.length := by
  intro l
  induction l with
  | nil => simp
  | cons c t ih =>
    rw [List.dropWhile_cons]
    split
    case isTrue => exact Nat.le_trans ih (Nat.le_succ _)
    case isFalse => simp

def specFirstDigitRun6Aux : Nat → List Char → Option (List Char)
  | 0, _ => none
  | _, [] => none
  | f + 1, c :: t =>
    if c.isDigit then
      let p := spanDigits (c :: t)
      if 6 ≤ p.1.length then some p.1 else specFirstDigitRun6Aux f p.2
    else specFirstDigitRun6Aux f t

/-- Modelled from the spec: the fallback extraction described by the spec
for URL identifiers, the first run of at least 6 consecutive digits in the
string (spec section 4.2 step 1).  Used to compare the spec's words with
the source's slash-delimited pattern.  Each recursive step strictly
shortens the list, so the list length is enough fuel. -/
def specFirstDigitRun6 (l : List Char) : Option (List Char) :=
  specFirstDigitRun6Aux l.length l

/-- Python str.isdigit: non-empty and all characters are digits. -/
def pyIsDigit (s : String) : Bool :=
  !s.toList.isEmpty && s.toList.all Char.isDigit

/-- Python int() on a digit string. -/
def digitsToNat (s : String) : Nat :=
  s.toList.foldl (fun n c => 10 * n + (c.toNat - '0'.toNat)) 0

/-- Decimal digit character. -/
def digitChar (d : Nat) : Char := Char.ofNat ('0'.toNat + d)

def natDecimalAux : Nat → Nat → List Char
  | 0, _ => []
  | f + 1, n =>
    if n < 10 then [digitChar n]
    else natDecimalAux f (n / 10) ++ [digitChar (n % 10)]

/-- Decimal representation of a natural number, as produced by Python
str(int); n+1 units of fuel always suffice since the argument shrinks by
a factor of 10 each step. -/
def natDecimal (n : Nat) : List Char := natDecimalAux (n + 1) n

def natStr (n : Nat) : String := String.mk (natDecimal n)

/-! ### Data model: goods items, response envelopes, HTTP responses -/

/-- One entry of the per-size array of a goods item
(wb_parser.py lines 93-98: price, discountedPrice, clubDiscountedPrice,
sizeID, techSizeName). -/
structure Size where
  price : Option Int
  discountedPrice : Option Int
  clubDiscountedPrice : Option Int
  sizeID : Option Int
  techSizeName : Option String
deriving DecidableEq

/-- One raw goods item of an API response.  Option.none models an absent
key (dict.get returning None). -/
structure Item where
  vendorCode : Option String
  vendor_code : Option String
  nmID : Option Nat
  nmId : Option Nat
  sizes : Option (List Size)
  price : Option Int
  discountedPrice : Option Int
  clubDiscountedPrice : Option Int
  discount : Option Int
  clubDiscount : Option Int
  currencyIsoCode4217 : Option String
  editableSizePrice : Option Bool
deriving DecidableEq

/-- The response-envelope shapes distinguished by get_prices_by_articles
(wb_api.py lines 265-279 and 322-349): a dict with data.listGoods, a dict
whose data is a bare list, a bare top-level list, a dict whose data key
holds neither, and anything else. -/
inductive Payload where
  | dataListGoods : List Item → Payload
  | dataList : List Item → Payload
  | bareList : List Item → Payload
  | dataOther : Payload
  | other : Payload
deriving DecidableEq

/-- Outcome of one HTTP request inside get_prices_by_articles, as the code
branches on it: status 200 with a parsed body, status 400, status 429 with
an optional Retry-After header value (seconds), any other status, or a
requests exception. -/
inductive Resp where
  | ok : Payload → Resp
  | badRequest : Resp
  | tooMany : Option Nat → Resp
  | otherStatus : Nat → Resp
  | netError : Resp
deriving DecidableEq

def respIsOk : Resp → Bool
  | Resp.ok _ => true
  | _ => false

/-- Request events issued by get_prices_by_articles: one Strategy A POST
per batch (with its nmList and issue time in ms), and the single
Strategy B GET.  The issue time records the clock of the model. -/
inductive ReqEv where
  | postA : Nat → List Nat → ReqEv
  | getB : Nat → ReqEv
deriving DecidableEq

def evTime : ReqEv → Nat
  | ReqEv.postA t _ => t
  | ReqEv.getB t => t

def evPayload : ReqEv → Option (List Nat)
  | ReqEv.postA _ b => some b
  | ReqEv.getB _ => none

/-! ### Python truthiness helpers -/

/-- Python `a or b` on values read with dict.get, where both None and the
empty string are falsy. -/
def pyOrStr (a b : Option String) : Option String :=
  match a with
  | some s => if s = "" then b else some s
  | none => b

/-- Python `a or b` on values read with dict.get, where both None and the
integer 0 are falsy. -/
def pyOrNat (a b : Option Nat) : Option Nat :=
  match a with
  | some n => if n = 0 then b else some n
  | none => b

/-- Python `a or b` on plain strings ("" is falsy). -/
def pyOrS (a b : String) : String := if a = "" then b else a

/-! ### Envelope extraction (get_prices_by_articles) -/

/-- The goods carried by a payload when it has one of the three list
shapes. -/
def contentOf : Payload → Option (List Item)
  | Payload.dataListGoods gs => some gs
  | Payload.dataList gs => some gs
  | Payload.bareList gs => some gs
  | Payload.dataOther => none
  | Payload.other => none

/-- Strategy A envelope handling (wb_api.py lines 265-279): on status 200,
goods are taken from data.listGoods, from a data list, or from a bare
list; any other shape contributes nothing.  A bare empty list is falsy
under `if result:` and also contributes nothing, which coincides with the
empty extension. -/
def extractA : Payload → List Item
  | Payload.dataListGoods gs => gs
  | Payload.dataList gs => gs
  | Payload.bareList gs => gs
  | Payload.dataOther => []
  | Payload.other => []

/-- The single article key the Strategy B filter computes for a row
(wb_api.py lines 337-341): the first non-empty of str(vendorCode),
str(nmID), str(nmId). -/
def goodArticle (g : Item) : String :=
  pyOrS (g.vendorCode.getD "")
    (pyOrS ((g.nmID.map natStr).getD "") ((g.nmId.map natStr).getD ""))

/-- Strategy B envelope handling (wb_api.py lines 322-349): only the
data.listGoods shape is filtered against the requested article set; a
data list is extended unfiltered; a bare list matches no branch
(the key test "data" in result fails on a list of goods dicts). -/
def extractB (p : Payload) (articleSet : List String) : List Item :=
  match p with
  | Payload.dataListGoods gs => gs.filter (fun g => articleSet.contains (goodArticle g))
  | Payload.dataList gs => gs
  | Payload.bareList _ => []
  | Payload.dataOther => []
  | Payload.other => []

/-! ### Batching -/

def chunksOfAux (n : Nat) : Nat → List α → List (List α)
  | 0, _ => []
  | f + 1, l =>
    if l.isEmpty ∨ n = 0 then []
    else l.take n :: chunksOfAux n f (l.drop n)

/-- range(0, len(l), n) slicing into consecutive chunks of at most n;
the list length is enough fuel since each step drops n ≥ 1 elements from
a non-empty list. -/
def chunksOf (n : Nat) (l : List α) : List (List α) :=
  chunksOfAux n l.length l

theorem chunksOfAux_fuel (n : Nat) :
    ∀ (f1 f2 : Nat) (l : List α), l.length ≤ f1 → l.length ≤ f2 →
      chunksOfAux n f1 l = chunksOfAux n f2 l := by
  intro f1
  induction f1 with
  | zero =>
    intro f2 l hl _
    have : l = [] := List.eq_nil_of_length_eq_zero (Nat.le_zero.mp hl)
    subst this
    cases f2 <;> rfl
  | succ f ih =>
    intro f2 l hl hl2
    rcases l with _ | ⟨a, t⟩
    · cases f2 <;> rfl
    · rcases f2 with _ | g
      · simp at hl2
      · simp only [chunksOfAux]
        by_cases hn : n = 0
        · simp [hn]
        · simp only [List.isEmpty_cons, Bool.false_eq_true, false_or, hn, if_false]
          have hd1 : ((a :: t).drop n).length ≤ f := by
            rw [List.length_drop]
            simp only [List.length_cons] at hl ⊢
            omega
          have hd2 : ((a :: t).drop n).length ≤ g := by
            rw [List.length_drop]
            simp only [List.length_cons] at hl2 ⊢
            omega
          rw [ih g _ hd1 hd2]

/-- The defining unfolding of chunksOf. -/
theorem chunksOf_eq (n : Nat) (l : List α) :
    chunksOf n l =
      if l.isEmpty ∨ n = 0 then [] else l.take n :: chunksOf n (l.drop n) := by
  rcases l with _ | ⟨a, t⟩
  · simp [chunksOf, chunksOfAux]
  · show chunksOfAux n (t.length + 1) (a :: t) = _
    rw [chunksOfAux]
    by_cases hn : n = 0
    · simp [hn]
    · simp only [List.isEmpty_cons, Bool.false_eq_true, false_or, hn, if_false]
      have hd : ((a :: t).drop n).length ≤ t.length := by
        rw [List.length_drop]
        simp only [List.length_cons]
        omega
      rw [chunksOfAux_fuel n t.length ((a :: t).drop n).length _ hd le_rfl]
      rfl

/-! ### The rate-limited Strategy A loop -/

/-- Mutable state of the Strategy A batch loop of get_prices_by_articles:
the model clock in ms, request_count, start_time, accumulated results and
the log of issued requests. -/
structure AState where
  now : Nat
  reqCount : Nat
  startTime : Nat
  results : List Item
  reqs : List (Nat × List Nat)
deriving DecidableEq

def st0 : AState := ⟨0, 0, 0, [], []⟩

/-- Rolling-window check before a batch request (wb_api.py lines 241-247):
once request_count reaches 10, sleep out the remainder of the 6-second
window, then reset the counter and the window start. -/
def windowAdjust (st : AState) : AState :=
  if 10 ≤ st.reqCount then
    if st.now - st.startTime < 6000 then
      { st with now := st.startTime + 6000, reqCount := 0,
                startTime := st.startTime + 6000 }
    else { st with reqCount := 0, startTime := st.now }
  else st

/-- Issue the POST for one batch: the request happens at the current model
time. -/
def issueReq (st : AState) (b : List Nat) : AState :=
  { st with reqs := st.reqs ++ [(st.now, b)] }

/-- Handle the response of one Strategy A batch request (wb_api.py lines
263-301): on 200 extend the results, count the request and sleep 600 ms;
on 400 log only; on 429 sleep Retry-After seconds (default 6) and move on
(the continue statement advances the for loop); other statuses and
exceptions are logged only. -/
def applyResp (st : AState) (r : Resp) : AState :=
  match r with
  | Resp.ok p => { st with results := st.results ++ extractA p,
                           reqCount := st.reqCount + 1,
                           now := st.now + 600 }
  | Resp.badRequest => st
  | Resp.tooMany ra => { st with now := st.now + (ra.getD 6) * 1000 }
  | Resp.otherStatus _ => st
  | Resp.netError => st

def stepA (oracle : Nat → Resp) (st : AState) (i : Nat) (b : List Nat) : AState :=
  applyResp (issueReq (windowAdjust st) b) (oracle i)

/-- The whole Strategy A loop over the numeric batches; the oracle gives
the response of the i-th issued request. -/
def runA (oracle : Nat → Resp) (batches : List (List Nat)) : AState :=
  batches.enum.foldl (fun st p => stepA oracle st p.1 p.2) st0

/-! ### get_prices_by_articles -/

/-- Result of one call to get_prices_by_articles: the returned value
(None or a non-empty list of goods) and the log of issued requests. -/
structure FetchResult where
  result : Option (List Item)
  log : List ReqEv
deriving DecidableEq

/-- Steps 2-3 of get_prices_by_articles (wb_api.py lines 303-359) after
the Strategy A loop left the state stA: return Strategy A's results if
any; otherwise issue the Strategy B GET and return its (possibly
filtered) goods, or None when nothing was collected. -/
def finishFetch (cleaned : List String) (oracleB : Resp) (stA : AState) :
    FetchResult :=
  let logA := stA.reqs.map (fun p => ReqEv.postA p.1 p.2)
  if !stA.results.isEmpty then ⟨some stA.results, logA⟩
  else
    let log2 := logA ++ [ReqEv.getB stA.now]
    match oracleB with
    | Resp.ok p =>
      let res := stA.results ++ extractB p cleaned
      ⟨if res.isEmpty then none else some res, log2⟩
    | _ => ⟨if stA.results.isEmpty then none else some stA.results, log2⟩

/-- WildberriesAPI.get_prices_by_articles (wb_api.py lines 196-359):
normalize the articles, run Strategy A over the batches of 100 numeric
articles (skipped entirely when no article is numeric), then fall through
to Strategy B when Strategy A collected nothing. -/
def getPricesByArticles (oracleA : Nat → Resp) (oracleB : Resp)
    (articles : List String) : FetchResult :=
  let cleaned := articles.map extractArticleFromUrl
  let numeric := cleaned.filter pyIsDigit
  let batches := (chunksOf 100 numeric).map (fun b => b.map digitsToNat)
  finishFetch cleaned oracleB
    (if numeric.isEmpty then st0 else runA oracleA batches)

/-- The issue times of all requests of one fetch, in order. -/
def reqTimes (f : FetchResult) : List Nat := f.log.map evTime

/-! ### Transport client -/

/-- Outcome of the underlying HTTP call in _make_request: the call
completed with some status and parsed body, or a requests exception was
raised. -/
inductive HttpOutcome where
  | completed : Nat → Payload → HttpOutcome
  | netFail : HttpOutcome
deriving DecidableEq

/-- WildberriesAPI._make_request (wb_api.py lines 34-79): on a completed
call, raise_for_status raises for statuses 400-599, which skips the
time.sleep(request_delay) and lands in the exception handler returning
None; otherwise the configured delay is slept and the parsed body
returned.  The second component is the total time slept. -/
def makeRequest (requestDelay : Nat) (o : HttpOutcome) : Option Payload × Nat :=
  match o with
  | HttpOutcome.completed s b =>
    if 400 ≤ s ∧ s < 600 then (none, 0) else (some b, requestDelay)
  | HttpOutcome.netFail => (none, 0)

/-- WildberriesAPI.__init__ (wb_api.py lines 17-32): the Authorization
header value derived from the api key; both branches of the Bearer-prefix
check yield the key unchanged. -/
def authHeader (apiKey : String) : String :=
  if apiKey.startsWith "Bearer " then apiKey else apiKey

/-! ### The parser (WildberriesParser.parse_basic_prices) -/

/-- One output row of parse_basic_prices.  Option.none models an absent
or None-valued field; error rows carry the error marker and, in the
source, the keys discount_price and price_with_card instead of the
per-size price keys. -/
structure Row where
  cabinet : String
  cabinet_id : String
  nm_id : Option Nat
  vendor_code : Option String
  size_id : Option Int
  size_name : Option String
  base_price : Option Int
  discounted_price : Option Int
  club_discounted_price : Option Int
  discount_percent : Option Int
  club_discount_percent : Option Int
  currency : Option String
  editable_size_price : Option Bool
  discount_price : Option Int
  price_with_card : Option Int
  error : Option String
deriving DecidableEq

/-- The error row synthesized for one requested identifier when a batch
yields no data (wb_parser.py lines 70-79). -/
def errorRow (cab cid : String) (v : String) : Row :=
  { cabinet := cab, cabinet_id := cid, nm_id := none, vendor_code := some v,
    size_id := none, size_name := none, base_price := none,
    discounted_price := none, club_discounted_price := none,
    discount_percent := none, club_discount_percent := none,
    currency := none, editable_size_price := none,
    discount_price := none, price_with_card := none,
    error := some "Не удалось получить цены" }

/-- The row produced for one size entry of an item
(wb_parser.py lines 93-114). -/
def sizeRow (cab cid : String) (it : Item) (sz : Size) : Row :=
  { cabinet := cab, cabinet_id := cid,
    nm_id := pyOrNat it.nmID it.nmId,
    vendor_code := pyOrStr it.vendorCode it.vendor_code,
    size_id := sz.sizeID,
    size_name := some (sz.techSizeName.getD ""),
    base_price := sz.price,
    discounted_price := sz.discountedPrice,
    club_discounted_price := sz.clubDiscountedPrice,
    discount_percent := it.discount,
    club_discount_percent := it.clubDiscount,
    currency := some (it.currencyIsoCode4217.getD "RUB"),
    editable_size_price := some (it.editableSizePrice.getD false),
    discount_price := none, price_with_card := none, error := none }

/-- The single row produced for an item without sizes
(wb_parser.py lines 115-135). -/
def topRow (cab cid : String) (it : Item) : Row :=
  { cabinet := cab, cabinet_id := cid,
    nm_id := pyOrNat it.nmID it.nmId,
    vendor_code := pyOrStr it.vendorCode it.vendor_code,
    size_id := none,
    size_name := none,
    base_price := it.price,
    discounted_price := it.discountedPrice,
    club_discounted_price := it.clubDiscountedPrice,
    discount_percent := it.discount,
    club_discount_percent := it.clubDiscount,
    currency := some (it.currencyIsoCode4217.getD "RUB"),
    editable_size_price := some (it.editableSizePrice.getD false),
    discount_price := none, price_with_card := none, error := none }

/-- Normalization of one raw price item (wb_parser.py lines 83-135):
one row per size entry when the sizes array is non-empty, otherwise one
row reading the price fields from the top level. -/
def normalizeItem (cab cid : String) (it : Item) : List Row :=
  let sizes := it.sizes.getD []
  if sizes.isEmpty then [topRow cab cid it]
  else sizes.map (sizeRow cab cid it)

/-- The rows contributed by one batch of parse_basic_prices
(wb_parser.py lines 65-135): error rows when the fetcher returned no data
(None or an empty list are both falsy), otherwise the normalization of
every returned item. -/
def rowsForBatch (cab cid : String) (fetch : List String → Option (List Item))
    (batch : List String) : List Row :=
  match fetch batch with
  | none => batch.map (errorRow cab cid)
  | some [] => batch.map (errorRow cab cid)
  | some items => (items.map (normalizeItem cab cid)).flatten

/-- WildberriesParser.parse_basic_prices (wb_parser.py lines 57-138),
from the point where the vendor codes have been read: process the codes
in batches of 100, accumulating rows. -/
def parseBasicPrices (cab cid : String)
    (fetch : List String → Option (List Item)) (vcs : List String) : List Row :=
  (chunksOf 100 vcs).foldl (fun acc b => acc ++ rowsForBatch cab cid fetch b) []

/-- A row mentions a requested identifier if the identifier is its vendor
code or the decimal form of its marketplace id. -/
def rowHasId (r : Row) (v : String) : Bool :=
  r.vendor_code == some v ||
    (match r.nm_id with
     | some n => natStr n == v
     | none => false)

/-! ### General lemmas about the embedding -/

theorem chunksOf_flatten (n : Nat) (hn : 0 < n) (l : List α) :
    (chunksOf n l).flatten = l := by
  have key : ∀ (k : Nat) (l : List α), l.length ≤ k → (chunksOf n l).flatten = l := by
    intro k
    induction k with
    | zero =>
      intro l hl
      have : l = [] := List.eq_nil_of_length_eq_zero (Nat.le_zero.mp hl)
      subst this
      rw [chunksOf_eq]
      simp
    | succ k ih =>
      intro l hl
      rw [chunksOf_eq]
      by_cases he : l.isEmpty ∨ n = 0
      · rcases he with he | he
        · rw [if_pos (Or.inl he)]
          cases l with
          | nil => rfl
          | cons a t => simp at he
        · omega
      · rw [if_neg he]
        have hd : (l.drop n).length ≤ k := by
          rw [List.length_drop]
          rcases l with _ | ⟨a, t⟩
          · simp at he
          · simp only [List.length_cons] at hl ⊢
            omega
        rw [List.flatten_cons, ih _ hd, List.take_append_drop]
  exact key l.length l le_rfl

theorem foldl_append_flatten (f : α → List β) :
    ∀ (l : List α) (acc : List β),
      l.foldl (fun a b => a ++ f b) acc = acc ++ (l.map f).flatten := by
  intro l
  induction l with
  | nil => intro acc; simp
  | cons b t ih =>
    intro acc
    simp only [List.foldl_cons, List.map_cons, List.flatten_cons]
    rw [ih, List.append_assoc]

/-- parse_basic_prices is the concatenation of the per-batch rows. -/
theorem parseBasicPrices_eq (cab cid : String)
    (fetch : List String → Option (List Item)) (vcs : List String) :
    parseBasicPrices cab cid fetch vcs =
      ((chunksOf 100 vcs).map (rowsForBatch cab cid fetch)).flatten := by
  unfold parseBasicPrices
  rw [foldl_append_flatten]
  rfl

/-! ### Concrete environments used by counterexamples and witnesses -/

/-- A goods item the API can return: vendor code and marketplace id of the
first requested article, no per-size array. -/
def itemA : Item :=
  ⟨some "111111", none, some 111111, none, none, some 100, some 90, some 85,
   some 10, some 5, some "RUB", some false⟩

def oracleC1A : Nat → Resp := fun _ => Resp.ok (Payload.dataListGoods [itemA])

/-- The real fetcher run against an environment whose one Strategy A
response carries data for only the first of the two requested articles. -/
def fetchC1 : List String → Option (List Item) := fun b =>
  (getPricesByArticles oracleC1A (Resp.ok (Payload.dataListGoods [])) b).result

/-- A fetcher whose environment never returns data. -/
def fetchNoData : List String → Option (List Item) := fun _ => none

/-! ### Claim C1 -/

/-- Claim C1, counterexample: with two requested identifiers in one batch
and a fetcher (the real get_prices_by_articles against a concrete
environment) that returns data for only the first, parse_basic_prices
emits a single row and the identifier 222222 appears in no output row —
it is silently dropped, contradicting the claim that every identifier of
a batch with data appears in at least one row. -/
theorem c1_counterexample :
    fetchC1 ["111111", "222222"] = some [itemA] ∧
    (parseBasicPrices "cab" "1" fetchC1 ["111111", "222222"]).length = 1 ∧
    ((parseBasicPrices "cab" "1" fetchC1 ["111111", "222222"]).filter
      (fun r => rowHasId r "222222")) = [] ∧
    "222222" ∈ ["111111", "222222"] := by
  decide

/-- Claim C1 as amended: an identifier yields a guaranteed (error) row
only when its whole batch yields no data — then every identifier of the
batch gets one error row, and when no batch yields data the output is
exactly one error row per requested identifier in order; a batch with a
non-empty fetch result contributes only the normalization of the returned
items, so identifiers missing from such a response yield no row. -/
theorem c1_error_rows_cover_empty_batches (cab cid : String)
    (fetch : List String → Option (List Item)) (vcs : List String) :
    (∀ b ∈ chunksOf 100 vcs, (fetch b = none ∨ fetch b = some []) →
      ∀ v ∈ b, errorRow cab cid v ∈ parseBasicPrices cab cid fetch vcs) ∧
    ((∀ b ∈ chunksOf 100 vcs, fetch b = none) →
      parseBasicPrices cab cid fetch vcs = vcs.map (errorRow cab cid)) := by
  constructor
  · intro b hb hnone v hv
    rw [parseBasicPrices_eq]
    apply List.mem_flatten.mpr
    refine ⟨rowsForBatch cab cid fetch b, List.mem_map_of_mem _ hb, ?_⟩
    have : rowsForBatch cab cid fetch b = b.map (errorRow cab cid) := by
      rcases hnone with h | h <;> simp [rowsForBatch, h]
    rw [this]
    exact List.mem_map_of_mem _ hv
  · intro hall
    rw [parseBasicPrices_eq]
    have hmap : (chunksOf 100 vcs).map (rowsForBatch cab cid fetch) =
        (chunksOf 100 vcs).map (fun b => b.map (errorRow cab cid)) := by
      apply List.map_congr_left
      intro b hb
      simp [rowsForBatch, hall b hb]
    rw [hmap, ← List.map_flatten, chunksOf_flatten 100 (by omega)]

/-- Claim C1 witness: the amended theorem applied at a concrete two-item
input whose fetcher never returns data. -/
theorem c1_witness :
    errorRow "cab" "1" "a" ∈ parseBasicPrices "cab" "1" fetchNoData ["a", "b"] :=
  (c1_error_rows_cover_empty_batches "cab" "1" fetchNoData ["a", "b"]).1
    ["a", "b"] (by decide) (Or.inl rfl) "a" (by decide)

/-! ### Claim C5 -/

/-- Claim C5: a raw item with a non-empty sizes array of length k yields
exactly k records, all sharing the item's nm id and vendor code, the i-th
taking size id, size name and the three price fields from the i-th size
entry; an item with no sizes array yields exactly one record with absent
size id and size name, reading its price fields from the top level. -/
theorem c5_normalize_sizes (cab cid : String) (it : Item) :
    (∀ l, it.sizes = some l → l ≠ [] →
      (normalizeItem cab cid it).length = l.length ∧
      (∀ r ∈ normalizeItem cab cid it,
        r.nm_id = pyOrNat it.nmID it.nmId ∧
        r.vendor_code = pyOrStr it.vendorCode it.vendor_code) ∧
      (∀ i, i < l.length →
        ∃ r sz, (normalizeItem cab cid it)[i]? = some r ∧ l[i]? = some sz ∧
          r.size_id = sz.sizeID ∧ r.size_name = some (sz.techSizeName.getD "") ∧
          r.base_price = sz.price ∧ r.discounted_price = sz.discountedPrice ∧
          r.club_discounted_price = sz.clubDiscountedPrice)) ∧
    (it.sizes = none →
      ∃ r, normalizeItem cab cid it = [r] ∧
        r.nm_id = pyOrNat it.nmID it.nmId ∧
        r.vendor_code = pyOrStr it.vendorCode it.vendor_code ∧
        r.size_id = none ∧ r.size_name = none ∧
        r.base_price = it.price ∧ r.discounted_price = it.discountedPrice ∧
        r.club_discounted_price = it.clubDiscountedPrice) := by
  constructor
  · intro l hl hne
    have hempty : l.isEmpty = false := by
      cases l with
      | nil => exact absurd rfl hne
      | cons s t => rfl
    have hnorm : normalizeItem cab cid it = l.map (sizeRow cab cid it) := by
      unfold normalizeItem
      rw [hl]
      simp [hempty]
    refine ⟨by rw [hnorm]; exact List.length_map _ _, ?_, ?_⟩
    · intro r hr
      rw [hnorm] at hr
      obtain ⟨sz, _, rfl⟩ := List.mem_map.mp hr
      exact ⟨rfl, rfl⟩
    · intro i hi
      refine ⟨sizeRow cab cid it (l.get ⟨i, hi⟩), l.get ⟨i, hi⟩, ?_, ?_,
        rfl, rfl, rfl, rfl, rfl⟩
      · rw [hnorm, List.getElem?_map, List.getElem?_eq_getElem hi]
        rfl
      · rw [List.getElem?_eq_getElem hi]
        rfl
  · intro h0
    refine ⟨topRow cab cid it, ?_, rfl, rfl, rfl, rfl, rfl, rfl, rfl⟩
    unfold normalizeItem
    rw [h0]
    rfl

/-- An item with two size entries, for the witness of claim C5. -/
def itemTwoSizes : Item :=
  ⟨some "222333", none, some 222333, none,
   some [⟨some 100, some 90, some 85, some 1, some "S"⟩,
         ⟨some 200, some 180, some 170, some 2, some "M"⟩],
   none, none, none, some 10, some 5, some "RUB", some false⟩

/-- Claim C5 witness: the theorem applied to a concrete item with two
size entries yields exactly two records. -/
theorem c5_witness : (normalizeItem "c" "1" itemTwoSizes).length = 2 :=
  ((c5_normalize_sizes "c" "1" itemTwoSizes).1
    [⟨some 100, some 90, some 85, some 1, some "S"⟩,
     ⟨some 200, some 180, some 170, some 2, some "M"⟩]
    rfl (by decide)).1

/-! ### Claim C8 -/

/-- Claim C8, counterexample: a completed call with HTTP error status 500
returns the failure signal with zero sleep — the configured delay of 500
is not slept on the HTTP-level error path, because raise_for_status
raises before the sleep line. -/
theorem c8_counterexample :
    makeRequest 500 (HttpOutcome.completed 500 Payload.other) = (none, 0) ∧
    400 ≤ 500 ∧ 500 < 600 ∧ (0 : Nat) ≠ 500 := by
  decide

/-- Claim C8 as amended: the fixed request_delay is slept only after a
successful (non-4xx/5xx) completed call, which then returns the parsed
body; a completed call with an HTTP error status and a network failure
both return the failure signal None without sleeping, and no case raises
to the caller. -/
theorem c8_delay_only_on_success (d : Nat) (o : HttpOutcome) :
    (∀ s b, o = HttpOutcome.completed s b → s < 400 →
      makeRequest d o = (some b, d)) ∧
    (∀ s b, o = HttpOutcome.completed s b → 400 ≤ s → s < 600 →
      makeRequest d o = (none, 0)) ∧
    (o = HttpOutcome.netFail → makeRequest d o = (none, 0)) := by
  refine ⟨?_, ?_, ?_⟩
  · intro s b ho hs
    subst ho
    simp only [makeRequest]
    rw [if_neg (by omega)]
  · intro s b ho hs1 hs2
    subst ho
    simp only [makeRequest]
    rw [if_pos ⟨hs1, hs2⟩]
  · intro ho
    subst ho
    rfl

/-- Claim C8 witness: the amended theorem applied at a successful call
with delay 250. -/
theorem c8_witness :
    makeRequest 250 (HttpOutcome.completed 200 Payload.other) =
      (some Payload.other, 250) :=
  (c8_delay_only_on_success 250 (HttpOutcome.completed 200 Payload.other)).1
    200 Payload.other rfl (by omega)

/-! ### Lemmas about the URL normalizer -/

theorem stripLit_self_append : ∀ (lit r : List Char), stripLit lit (lit ++ r) = some r := by
  intro lit
  induction lit with
  | nil => intro r; rfl
  | cons c cs ih =>
    intro r
    simp only [List.cons_append, stripLit, if_pos rfl]
    exact ih r

theorem matchCatalogAt_none_of_head (c : Char) (t : List Char) (h : c ≠ '/') :
    matchCatalogAt (c :: t) = none := by
  have hs : stripLit catLit (c :: t) = none := by
    show (if '/' = c then stripLit "catalog/".toList t else none) = none
    rw [if_neg (fun he => h he.symm)]
  unfold matchCatalogAt
  rw [hs]

theorem matchCatalogAt_slash_none (c : Char) (t : List Char) (h : c ≠ 'c') :
    matchCatalogAt ('/' :: c :: t) = none := by
  have hs : stripLit catLit ('/' :: c :: t) = none := by
    show (if '/' = '/' then stripLit "catalog/".toList (c :: t) else none) = none
    rw [if_pos rfl]
    show (if 'c' = c then stripLit "atalog/".toList t else none) = none
    rw [if_neg (fun he => h he.symm)]
  unfold matchCatalogAt
  rw [hs]

theorem searchCatalog_cons (c : Char) (t : List Char)
    (h : matchCatalogAt (c :: t) = none) :
    searchCatalog (c :: t) = searchCatalog t := by
  simp only [searchCatalog]
  rw [h]

theorem searchCatalog_cons_some (c : Char) (t g : List Char)
    (h : matchCatalogAt (c :: t) = some g) :
    searchCatalog (c :: t) = some g := by
  simp only [searchCatalog]
  rw [h]

theorem takeWhile_digits_append (ds rest : List Char)
    (hd : ds.all Char.isDigit = true)
    (hr : rest.takeWhile Char.isDigit = []) :
    (ds ++ rest).takeWhile Char.isDigit = ds := by
  induction ds with
  | nil => simpa using hr
  | cons d t ih =>
    simp only [List.all_cons, Bool.and_eq_true] at hd
    simp only [List.cons_append, List.takeWhile_cons, hd.1, if_true]
    rw [ih hd.2]

theorem dropWhile_digits_append (ds rest : List Char)
    (hd : ds.all Char.isDigit = true)
    (hr : rest.dropWhile Char.isDigit = rest) :
    (ds ++ rest).dropWhile Char.isDigit = rest := by
  induction ds with
  | nil => simpa using hr
  | cons d t ih =>
    simp only [List.all_cons, Bool.and_eq_true] at hd
    simp only [List.cons_append, List.dropWhile_cons, hd.1, if_true]
    exact ih hd.2

theorem spanDigits_digits_det (ds : List Char)
    (hd : ds.all Char.isDigit = true) :
    spanDigits (ds ++ detLit) = (ds, detLit) := by
  unfold spanDigits
  rw [takeWhile_digits_append ds detLit hd (by decide),
      dropWhile_digits_append ds detLit hd (by decide)]

theorem matchCatalogAt_hit (ds : List Char) (hne : ds ≠ [])
    (hd : ds.all Char.isDigit = true) :
    matchCatalogAt (catLit ++ (ds ++ detLit)) = some ds := by
  have hemp : ds.isEmpty = false := by
    cases ds with
    | nil => exact absurd rfl hne
    | cons a t => rfl
  have hdet : stripLit detLit detLit = some [] := by
    have := stripLit_self_append detLit []
    rwa [List.append_nil] at this
  unfold matchCatalogAt
  rw [stripLit_self_append]
  dsimp only
  rw [spanDigits_digits_det ds hd]
  dsimp only
  rw [hemp]
  simp only [Bool.false_eq_true, if_false]
  rw [hdet]

/-- The characters of the catalog-form product URL around a digit group. -/
def wbUrlChars (ds : List Char) : List Char :=
  "https://www.wildberries.ru".toList ++ (catLit ++ (ds ++ detLit))

theorem searchCatalog_wbUrl (ds : List Char) (hne : ds ≠ [])
    (hd : ds.all Char.isDigit = true) :
    searchCatalog (wbUrlChars ds) = some ds := by
  show searchCatalog
    ('h' :: 't' :: 't' :: 'p' :: 's' :: ':' :: '/' :: '/' :: 'w' :: 'w' ::
     'w' :: '.' :: 'w' :: 'i' :: 'l' :: 'd' :: 'b' :: 'e' :: 'r' :: 'r' ::
     'i' :: 'e' :: 's' :: '.' :: 'r' :: 'u' :: (catLit ++ (ds ++ detLit)))
      = some ds
  rw [searchCatalog_cons 'h' _ (matchCatalogAt_none_of_head 'h' _ (by decide))]
  rw [searchCatalog_cons 't' _ (matchCatalogAt_none_of_head 't' _ (by decide))]
  rw [searchCatalog_cons 't' _ (matchCatalogAt_none_of_head 't' _ (by decide))]
  rw [searchCatalog_cons 'p' _ (matchCatalogAt_none_of_head 'p' _ (by decide))]
  rw [searchCatalog_cons 's' _ (matchCatalogAt_none_of_head 's' _ (by decide))]
  rw [searchCatalog_cons ':' _ (matchCatalogAt_none_of_head ':' _ (by decide))]
  rw [searchCatalog_cons '/' _ (matchCatalogAt_slash_none '/' _ (by decide))]
  rw [searchCatalog_cons '/' _ (matchCatalogAt_slash_none 'w' _ (by decide))]
  rw [searchCatalog_cons 'w' _ (matchCatalogAt_none_of_head 'w' _ (by decide))]
  rw [searchCatalog_cons 'w' _ (matchCatalogAt_none_of_head 'w' _ (by decide))]
  rw [searchCatalog_cons 'w' _ (matchCatalogAt_none_of_head 'w' _ (by decide))]
  rw [searchCatalog_cons '.' _ (matchCatalogAt_none_of_head '.' _ (by decide))]
  rw [searchCatalog_cons 'w' _ (matchCatalogAt_none_of_head 'w' _ (by decide))]
  rw [searchCatalog_cons 'i' _ (matchCatalogAt_none_of_head 'i' _ (by decide))]
  rw [searchCatalog_cons 'l' _ (matchCatalogAt_none_of_head 'l' _ (by decide))]
  rw [searchCatalog_cons 'd' _ (matchCatalogAt_none_of_head 'd' _ (by decide))]
  rw [searchCatalog_cons 'b' _ (matchCatalogAt_none_of_head 'b' _ (by decide))]
  rw [searchCatalog_cons 'e' _ (matchCatalogAt_none_of_head 'e' _ (by decide))]
  rw [searchCatalog_cons 'r' _ (matchCatalogAt_none_of_head 'r' _ (by decide))]
  rw [searchCatalog_cons 'r' _ (matchCatalogAt_none_of_head 'r' _ (by decide))]
  rw [searchCatalog_cons 'i' _ (matchCatalogAt_none_of_head 'i' _ (by decide))]
  rw [searchCatalog_cons 'e' _ (matchCatalogAt_none_of_head 'e' _ (by decide))]
  rw [searchCatalog_cons 's' _ (matchCatalogAt_none_of_head 's' _ (by decide))]
  rw [searchCatalog_cons '.' _ (matchCatalogAt_none_of_head '.' _ (by decide))]
  rw [searchCatalog_cons 'r' _ (matchCatalogAt_none_of_head 'r' _ (by decide))]
  rw [searchCatalog_cons 'u' _ (matchCatalogAt_none_of_head 'u' _ (by decide))]
  exact searchCatalog_cons_some '/' _ ds (matchCatalogAt_hit ds hne hd)

theorem digit_not_pySpace (c : Char) (h : c.isDigit = true) : pySpace c = false := by
  by_contra hp
  simp only [Bool.not_eq_false] at hp
  simp only [pySpace, Bool.or_eq_true, decide_eq_true_eq] at hp
  rcases hp with ((((h1 | h1) | h1) | h1) | h1) | h1 <;>
    (subst h1; exact absurd h (by decide))

theorem dropWhile_eq_self_of_none (p : Char → Bool) (l : List Char)
    (h : ∀ c ∈ l, p c = false) : l.dropWhile p = l := by
  cases l with
  | nil => rfl
  | cons c t =>
    rw [List.dropWhile_cons, if_neg]
    simp [h c (List.mem_cons_self c t)]

theorem trimChars_of_no_space (l : List Char)
    (h : ∀ c ∈ l, pySpace c = false) : trimChars l = l := by
  unfold trimChars
  rw [dropWhile_eq_self_of_none pySpace l h,
      dropWhile_eq_self_of_none pySpace l.reverse
        (fun c hc => h c (List.mem_reverse.mp hc)),
      List.reverse_reverse]

theorem stripLit_http_digits (ds : List Char) (hne : ds ≠ [])
    (hd : ds.all Char.isDigit = true) :
    (stripLit httpLit ds).isSome = false := by
  cases ds with
  | nil => exact absurd rfl hne
  | cons c t =>
    simp only [List.all_cons, Bool.and_eq_true] at hd
    have hch : ('h' : Char) ≠ c := by
      intro he
      rw [← he] at hd
      exact absurd hd.1 (by decide)
    show ((if 'h' = c then stripLit "ttp".toList t else none)).isSome = false
    rw [if_neg hch]
    rfl

/-- Branch behaviour of _extract_article_from_url: non-URL input. -/
theorem extract_of_nonhttp (a : String)
    (h : (stripLit httpLit a.toList).isSome = false) :
    extractArticleFromUrl a = String.mk (trimChars a.toList) := by
  unfold extractArticleFromUrl
  simp only [h, Bool.false_eq_true, if_false]

/-- Branch behaviour of _extract_article_from_url: catalog pattern found. -/
theorem extract_of_catalog (a : String) (g : List Char)
    (h1 : (stripLit httpLit a.toList).isSome = true)
    (h2 : searchCatalog a.toList = some g) :
    extractArticleFromUrl a = String.mk g := by
  unfold extractArticleFromUrl
  simp only [h1, if_true, h2]

/-- Branch behaviour of _extract_article_from_url: slash-delimited digit
run found. -/
theorem extract_of_slash6 (a : String) (g : List Char)
    (h1 : (stripLit httpLit a.toList).isSome = true)
    (h2 : searchCatalog a.toList = none)
    (h3 : searchSlash6 a.toList = some g) :
    extractArticleFromUrl a = String.mk g := by
  unfold extractArticleFromUrl
  simp only [h1, if_true, h2, h3]

/-- Branch behaviour of _extract_article_from_url: URL with neither
pattern. -/
theorem extract_of_no_pattern (a : String)
    (h1 : (stripLit httpLit a.toList).isSome = true)
    (h2 : searchCatalog a.toList = none)
    (h3 : searchSlash6 a.toList = none) :
    extractArticleFromUrl a = String.mk (trimChars a.toList) := by
  unfold extractArticleFromUrl
  simp only [h1, if_true, h2, h3]

/-! ### Claim C9 -/

/-- Claim C9, counterexample: the input "http://a/1234567" is URL-form
and contains a run of 7 consecutive digits (which the spec's fallback,
modelled by specFirstDigitRun6, extracts), yet the code returns the whole
trimmed string unchanged because its fallback regex requires the digit
run to be delimited by slashes on both sides. -/
theorem c9_counterexample :
    extractArticleFromUrl "http://a/1234567" = "http://a/1234567" ∧
    specFirstDigitRun6 ("http://a/1234567".toList) =
      some ("1234567".toList) ∧
    (stripLit httpLit ("http://a/1234567".toList)).isSome = true ∧
    "http://a/1234567" ≠ "1234567" := by
  decide

/-- Claim C9 as amended: for a non-URL input the trimmed string is
returned as-is; for URL input the catalog-segment digit group is
extracted, or failing that the first slash-delimited (not merely
consecutive) run of at least 6 digits, or failing both the trimmed string
is returned; and a catalog-form URL and the bare digit code it embeds
normalize to the same value. -/
theorem c9_url_normalization (a : String) (g ds : List Char) :
    ((stripLit httpLit a.toList).isSome = false →
      extractArticleFromUrl a = String.mk (trimChars a.toList)) ∧
    ((stripLit httpLit a.toList).isSome = true →
      searchCatalog a.toList = some g →
      extractArticleFromUrl a = String.mk g) ∧
    ((stripLit httpLit a.toList).isSome = true →
      searchCatalog a.toList = none → searchSlash6 a.toList = some g →
      extractArticleFromUrl a = String.mk g) ∧
    ((stripLit httpLit a.toList).isSome = true →
      searchCatalog a.toList = none → searchSlash6 a.toList = none →
      extractArticleFromUrl a = String.mk (trimChars a.toList)) ∧
    (ds ≠ [] → ds.all Char.isDigit = true →
      extractArticleFromUrl (String.mk (wbUrlChars ds)) = String.mk ds ∧
      extractArticleFromUrl (String.mk ds) = String.mk ds) := by
  refine ⟨extract_of_nonhttp a, extract_of_catalog a g,
    extract_of_slash6 a g, extract_of_no_pattern a, ?_⟩
  intro hne hd
  constructor
  · have h1 : (stripLit httpLit (String.mk (wbUrlChars ds)).toList).isSome = true := rfl
    exact extract_of_catalog _ ds h1 (searchCatalog_wbUrl ds hne hd)
  · have h1 : (stripLit httpLit (String.mk ds).toList).isSome = false :=
      stripLit_http_digits ds hne hd
    rw [extract_of_nonhttp _ h1]
    show String.mk (trimChars ds) = String.mk ds
    rw [trimChars_of_no_space ds
      (fun c hc => digit_not_pySpace c (by
        rw [List.all_eq_true] at hd
        exact hd c hc))]

/-- Claim C9 witness: the amended theorem applied at a concrete catalog
URL and its embedded digit code. -/
theorem c9_witness :
    extractArticleFromUrl
        "https://www.wildberries.ru/catalog/115224606/detail.aspx" =
      "115224606" ∧
    extractArticleFromUrl "115224606" = "115224606" :=
  ((c9_url_normalization "" [] ("115224606".toList)).2.2.2.2
    (by decide) (by decide))

/-! ### Minimum spacing relation of the rate limiter -/

/-- Two request times at least 600 ms apart. -/
def spaced (a b : Nat) : Prop := a + 600 ≤ b

instance : DecidableRel spaced := fun a b =>
  inferInstanceAs (Decidable (a + 600 ≤ b))

instance : IsTrans Nat spaced :=
  ⟨fun a b c hab hbc => by
    unfold spaced at *
    omega⟩

/-! ### Concrete environments for the fetcher claims -/

/-- 101 numeric articles: two Strategy A batches of 100 and 1. -/
def articles101 : List String := List.replicate 101 "100000"

/-- Environment whose first Strategy A response is HTTP 400 and whose
later responses succeed with one item. -/
def oracleBad0 : Nat → Resp := fun i =>
  if i = 0 then Resp.badRequest else Resp.ok (Payload.dataListGoods [itemA])

/-- Environment whose first Strategy A response is HTTP 429 without a
Retry-After header and whose later responses succeed with one item. -/
def oracle429 : Nat → Resp := fun i =>
  if i = 0 then Resp.tooMany none else Resp.ok (Payload.dataListGoods [itemA])

/-- Environment whose Strategy A responses all succeed with empty
listGoods. -/
def oracleOkEmpty : Nat → Resp := fun _ => Resp.ok (Payload.dataListGoods [])

/-- An item whose vendor code is the non-numeric article "abc" and whose
marketplace id is 123456. -/
def goodAbc : Item :=
  ⟨some "abc", none, some 123456, none, none, none, none, none, none, none,
   none, none⟩

/-- An item matching none of the requested articles. -/
def goodZzz : Item :=
  ⟨some "zzz", none, some 999999, none, none, none, none, none, none, none,
   none, none⟩

/-- One fetch of the non-numeric article "abc" whose single Strategy B
response carries the given payload (Strategy A is skipped because no
article is numeric). -/
def fetchShaped (p : Payload) : FetchResult :=
  getPricesByArticles (fun _ => Resp.badRequest) (Resp.ok p) ["abc"]

/-! ### Claim C2 -/

/-- Claim C2, counterexample: with 101 numeric identifiers (two batches)
and a first response of HTTP 400, the second batch request is issued at
the same instant as the first — no 600 ms spacing and no sleep separates
two consecutive requests when the first one fails, because only the
status-200 branch sleeps and counts. -/
theorem c2_counterexample :
    reqTimes (getPricesByArticles oracleBad0 Resp.badRequest articles101) =
      [0, 0] ∧
    ¬ List.Chain' spaced [0, 0] := by
  constructor
  · decide
  · intro h
    have h6 := (List.chain'_cons.mp h).1
    unfold spaced at h6
    omega

/-! ### Claim C3 -/

/-- Claim C3, counterexample: with 101 numeric identifiers (two batches)
and a first response of HTTP 429 without Retry-After, the fetcher sleeps
the default 6 seconds but then issues the NEXT batch — the 429'd batch is
submitted exactly once and never retried (continue advances the for
loop), and the returned goods come from the second batch only. -/
theorem c3_counterexample :
    (getPricesByArticles oracle429 Resp.badRequest articles101).log =
      [ReqEv.postA 0 (List.replicate 100 100000),
       ReqEv.postA 6000 [100000]] ∧
    ((getPricesByArticles oracle429 Resp.badRequest articles101).log.countP
      (fun e => evPayload e == some (List.replicate 100 100000))) = 1 ∧
    (getPricesByArticles oracle429 Resp.badRequest articles101).result =
      some [itemA] := by
  refine ⟨by decide, by decide, by decide⟩

/-! ### Claim C4 -/

/-- Claim C4: the code's actual behaviour at the failing input.  With two
Strategy A batches whose first request gets HTTP 400 (so zero prior
successes) and whose second succeeds, the fetcher still issues the second
Strategy A batch (Strategy A is not abandoned — the loop has no break),
returns that batch's goods, and never issues the Strategy B GET, contrary
to the claim and to the source's own comment announcing a fall-through to
the listing request. -/
theorem c4_code_behavior :
    (getPricesByArticles oracleBad0 (Resp.ok (Payload.dataListGoods [itemA]))
        articles101).result = some [itemA] ∧
    (getPricesByArticles oracleBad0 (Resp.ok (Payload.dataListGoods [itemA]))
        articles101).log =
      [ReqEv.postA 0 (List.replicate 100 100000),
       ReqEv.postA 0 [100000]] ∧
    ((getPricesByArticles oracleBad0 (Resp.ok (Payload.dataListGoods [itemA]))
        articles101).log.all
      (fun e => match e with
        | ReqEv.getB _ => false
        | ReqEv.postA _ _ => true)) = true := by
  refine ⟨by decide, by decide, by decide⟩

/-! ### Claim C6 -/

/-- Claim C6, counterexample: the same single-item content produces
different Strategy B results across the three envelope shapes — the
data.listGoods shape is filtered and returned, the data-list shape is
returned unfiltered (a non-matching row survives), and the bare-list
shape is ignored entirely (a matching row is lost). -/
theorem c6_counterexample :
    (fetchShaped (Payload.dataListGoods [goodAbc])).result = some [goodAbc] ∧
    (fetchShaped (Payload.dataList [goodAbc])).result = some [goodAbc] ∧
    (fetchShaped (Payload.bareList [goodAbc])).result = none ∧
    (fetchShaped (Payload.dataListGoods [goodZzz])).result = none ∧
    (fetchShaped (Payload.dataList [goodZzz])).result = some [goodZzz] := by
  refine ⟨by decide, by decide, by decide, by decide, by decide⟩

/-! ### Claim C7 -/

/-- Claim C7, counterexample: a listing row whose vendor code "abc" does
not match but whose marketplace id 123456 is exactly the requested
(normalized) identifier is excluded by the Strategy B filter, because the
filter key is the first non-empty field (the vendor code), not a
disjunction over all identifier fields. -/
theorem c7_counterexample :
    (getPricesByArticles (fun _ => Resp.badRequest)
        (Resp.ok (Payload.dataListGoods [goodAbc])) ["123456"]).result =
      none ∧
    goodAbc.nmID = some 123456 ∧
    List.map extractArticleFromUrl ["123456"] = ["123456"] ∧
    natStr 123456 = "123456" := by
  refine ⟨by decide, by decide, by decide, by decide⟩

/-! ### Rate-window invariant for all-successful runs -/

theorem windowAdjust_reqs (st : AState) : (windowAdjust st).reqs = st.reqs := by
  unfold windowAdjust
  split
  · split <;> rfl
  · rfl

theorem windowAdjust_now_ge (st : AState) : st.now ≤ (windowAdjust st).now := by
  unfold windowAdjust
  split
  · split
    · show st.now ≤ st.startTime + 6000
      omega
    · exact le_rfl
  · exact le_rfl

/-- Invariant maintained over the Strategy A loop when every response is
successful: the issued request times form a 600 ms-spaced chain, and the
clock is at least 600 ms past every issued request. -/
def AInv (st : AState) : Prop :=
  List.Chain' spaced (st.reqs.map Prod.fst) ∧
  ∀ x ∈ st.reqs.map Prod.fst, x + 600 ≤ st.now

theorem windowAdjust_inv (st : AState) (h : AInv st) : AInv (windowAdjust st) := by
  obtain ⟨h1, h2⟩ := h
  constructor
  · rw [windowAdjust_reqs]
    exact h1
  · rw [windowAdjust_reqs]
    intro x hx
    exact le_trans (h2 x hx) (windowAdjust_now_ge st)

theorem stepA_ok_eq (oracle : Nat → Resp) (st : AState) (i : Nat)
    (b : List Nat) (p : Payload) (h : oracle i = Resp.ok p) :
    stepA oracle st i b =
      { now := (windowAdjust st).now + 600,
        reqCount := (windowAdjust st).reqCount + 1,
        startTime := (windowAdjust st).startTime,
        results := (windowAdjust st).results ++ extractA p,
        reqs := (windowAdjust st).reqs ++ [((windowAdjust st).now, b)] } := by
  unfold stepA issueReq applyResp
  rw [h]

theorem mem_of_mem_getLast (l : List Nat) (x : Nat) (h : x ∈ l.getLast?) :
    x ∈ l := by
  obtain ⟨hne, rfl⟩ := List.mem_getLast?_eq_getLast h
  exact List.getLast_mem hne

theorem append_one_chain (ts : List Nat) (v : Nat)
    (hc : List.Chain' spaced ts) (hb : ∀ x ∈ ts, x + 600 ≤ v) :
    List.Chain' spaced (ts ++ [v]) := by
  apply List.chain'_append.mpr
  refine ⟨hc, List.chain'_singleton v, ?_⟩
  intro x hx y hy
  have h2 : some v = some y := Option.mem_def.mp hy
  have hyv : v = y := Option.some.inj h2
  have hxm : x ∈ ts := mem_of_mem_getLast ts x hx
  rw [← hyv]
  exact hb x hxm

theorem stepA_inv_ok (oracle : Nat → Resp) (st : AState) (i : Nat)
    (b : List Nat) (hok : respIsOk (oracle i) = true) (h : AInv st) :
    AInv (stepA oracle st i b) := by
  rcases horc : oracle i with p | _ | ra | s | _
  case badRequest =>
    rw [horc] at hok
    exact absurd hok (by simp [respIsOk])
  case tooMany =>
    rw [horc] at hok
    exact absurd hok (by simp [respIsOk])
  case otherStatus =>
    rw [horc] at hok
    exact absurd hok (by simp [respIsOk])
  case netError =>
    rw [horc] at hok
    exact absurd hok (by simp [respIsOk])
  have hw := windowAdjust_inv st h
  rw [stepA_ok_eq oracle st i b p horc]
  constructor
  · show List.Chain' spaced
      (((windowAdjust st).reqs ++ [((windowAdjust st).now, b)]).map Prod.fst)
    rw [List.map_append]
    exact append_one_chain _ _ hw.1 hw.2
  · intro x hx
    show x + 600 ≤ (windowAdjust st).now + 600
    rw [List.map_append] at hx
    rcases List.mem_append.mp hx with hx | hx
    · have := hw.2 x hx
      omega
    · simp only [List.map_cons, List.map_nil, List.mem_singleton] at hx
      omega

theorem foldA_inv (oracle : Nat → Resp)
    (hok : ∀ i, respIsOk (oracle i) = true) :
    ∀ (ps : List (Nat × List Nat)) (st : AState), AInv st →
      AInv (ps.foldl (fun s p => stepA oracle s p.1 p.2) st) := by
  intro ps
  induction ps with
  | nil => intro st h; exact h
  | cons q t ih =>
    intro st h
    exact ih _ (stepA_inv_ok oracle st q.1 q.2 (hok q.1) h)

theorem st0_inv : AInv st0 := by
  constructor
  · exact List.chain'_nil
  · intro x hx
    simp [st0] at hx

theorem runA_inv (oracle : Nat → Resp) (batches : List (List Nat))
    (hok : ∀ i, respIsOk (oracle i) = true) : AInv (runA oracle batches) :=
  foldA_inv oracle hok _ st0 st0_inv

theorem logA_times (st : AState) :
    ((st.reqs.map (fun p => ReqEv.postA p.1 p.2)).map evTime) =
      st.reqs.map Prod.fst := by
  rw [List.map_map]
  rfl

/-- Request times of the full fetch are a 600 ms-spaced chain whenever
the Strategy A state satisfies the invariant. -/
theorem finishFetch_chain (cleaned : List String) (oracleB : Resp)
    (st : AState) (h : AInv st) :
    List.Chain' spaced (reqTimes (finishFetch cleaned oracleB st)) := by
  unfold finishFetch reqTimes
  by_cases hres : st.results.isEmpty
  · rcases oracleB with p | _ | ra | s | _ <;>
      (rw [hres]
       show List.Chain' spaced
         (((st.reqs.map (fun p2 => ReqEv.postA p2.1 p2.2)) ++
           [ReqEv.getB st.now]).map evTime)
       rw [List.map_append, logA_times]
       simp only [List.map_cons, List.map_nil, evTime]
       exact append_one_chain _ _ h.1 h.2)
  · rw [Bool.not_eq_true] at hres
    rw [hres]
    show List.Chain' spaced
      ((st.reqs.map (fun p => ReqEv.postA p.1 p.2)).map evTime)
    rw [logA_times]
    exact h.1

theorem chain_ge_head (h : Nat) (rest : List Nat)
    (hc : List.Chain' spaced (h :: rest)) : ∀ x ∈ rest, h + 600 ≤ x := by
  induction rest generalizing h with
  | nil => intro x hx; simp at hx
  | cons r t ih =>
    intro x hx
    have hhr : spaced h r := (List.chain'_cons.mp hc).1
    have hct : List.Chain' spaced (r :: t) := (List.chain'_cons.mp hc).2
    rcases List.mem_cons.mp hx with rfl | hx2
    · exact hhr
    · have := ih r hct x hx2
      unfold spaced at *
      omega

theorem chain_bound : ∀ (m t : Nat) (us : List Nat),
    List.Chain' spaced us → (∀ x ∈ us, t ≤ x ∧ x < t + 600 * m) →
    us.length ≤ m := by
  intro m
  induction m with
  | zero =>
    intro t us hc hb
    cases us with
    | nil => simp
    | cons h rest =>
      have := hb h (List.mem_cons_self h rest)
      omega
  | succ m ih =>
    intro t us hc hb
    cases us with
    | nil => simp
    | cons h rest =>
      have hcr : List.Chain' spaced rest := by
        cases rest with
        | nil => exact List.chain'_nil
        | cons r t2 => exact (List.chain'_cons.mp hc).2
      have hh := hb h (List.mem_cons_self h rest)
      have hlen : rest.length ≤ m := by
        apply ih (t + 600) rest hcr
        intro x hx
        have h1 := chain_ge_head h rest hc x hx
        have h2 := hb x (List.mem_cons_of_mem h hx)
        omega
      simp only [List.length_cons]
      omega

/-- Any half-open 6-second window contains at most 10 elements of a
600 ms-spaced chain of request times. -/
theorem spaced_window_bound (ts : List Nat) (hc : List.Chain' spaced ts)
    (t : Nat) :
    (ts.filter (fun x => t ≤ x && x < t + 6000)).length ≤ 10 := by
  have hsub := List.filter_sublist (p := fun x => t ≤ x && x < t + 6000) ts
  have hc2 : List.Chain' spaced (ts.filter (fun x => t ≤ x && x < t + 6000)) :=
    hc.sublist hsub
  apply chain_bound 10 t _ hc2
  intro x hx
  have hmem := List.mem_filter.mp hx
  have hcond := hmem.2
  simp only [Bool.and_eq_true, decide_eq_true_eq] at hcond
  omega

/-! ### Claim C2 -/

/-- Claim C2 as amended: the 600 ms minimum spacing and the 10-requests-
per-rolling-6-second-window bound hold when every Strategy A response is
a success (HTTP 200): only the 200 branch counts the request and sleeps
the 600 ms interval, so on failed responses (see the counterexample) two
consecutive requests can be issued with no spacing at all. -/
theorem c2_spacing_on_success (oracleA : Nat → Resp) (oracleB : Resp)
    (articles : List String) (hok : ∀ i, respIsOk (oracleA i) = true) :
    List.Chain' spaced
      (reqTimes (getPricesByArticles oracleA oracleB articles)) ∧
    ∀ t, ((reqTimes (getPricesByArticles oracleA oracleB articles)).filter
        (fun x => t ≤ x && x < t + 6000)).length ≤ 10 := by
  have hchain : List.Chain' spaced
      (reqTimes (getPricesByArticles oracleA oracleB articles)) := by
    unfold getPricesByArticles
    apply finishFetch_chain
    split
    · exact st0_inv
    · exact runA_inv oracleA _ hok
  exact ⟨hchain, fun t => spaced_window_bound _ hchain t⟩

/-- Claim C2 witness: the amended theorem at a concrete all-success
environment with one numeric article. -/
theorem c2_witness :
    List.Chain' spaced
      (reqTimes (getPricesByArticles oracleOkEmpty Resp.badRequest
        ["123456"])) ∧
    ((reqTimes (getPricesByArticles oracleOkEmpty Resp.badRequest
        ["123456"])).filter (fun x => 0 ≤ x && x < 0 + 6000)).length ≤ 10 :=
  ⟨(c2_spacing_on_success oracleOkEmpty Resp.badRequest ["123456"]
      (fun _ => rfl)).1,
   (c2_spacing_on_success oracleOkEmpty Resp.badRequest ["123456"]
      (fun _ => rfl)).2 0⟩

/-! ### Each batch is issued exactly once -/

theorem stepA_reqs_snd (oracle : Nat → Resp) (st : AState) (i : Nat)
    (b : List Nat) :
    ((stepA oracle st i b).reqs).map Prod.snd =
      (st.reqs).map Prod.snd ++ [b] := by
  unfold stepA issueReq applyResp
  rcases oracle i with p | _ | ra | s | _ <;>
    (show (((windowAdjust st).reqs ++ [((windowAdjust st).now, b)]).map
        Prod.snd) = (st.reqs).map Prod.snd ++ [b]
     rw [List.map_append, windowAdjust_reqs]
     rfl)

theorem foldA_reqs_snd (oracle : Nat → Resp) :
    ∀ (ps : List (Nat × List Nat)) (st : AState),
      ((ps.foldl (fun s p => stepA oracle s p.1 p.2) st).reqs).map Prod.snd =
        (st.reqs).map Prod.snd ++ ps.map Prod.snd := by
  intro ps
  induction ps with
  | nil => intro st; simp
  | cons q t ih =>
    intro st
    simp only [List.foldl_cons, List.map_cons]
    rw [ih, stepA_reqs_snd, List.append_assoc]
    rfl

/-! ### Claim C3 -/

/-- Claim C3 as amended: after a 429 the fetcher sleeps the Retry-After
duration (default 6 s, as the counterexample shows concretely) but the
continue statement advances the for loop, so the 429'd batch is never
retried — every batch's identifier list is submitted exactly once in
Strategy A, whatever the responses are. -/
theorem c3_each_batch_issued_once (oracle : Nat → Resp)
    (batches : List (List Nat)) :
    ((runA oracle batches).reqs).map Prod.snd = batches := by
  unfold runA
  rw [foldA_reqs_snd]
  show ([] : List (List Nat)) ++ batches.enum.map Prod.snd = batches
  rw [List.nil_append, List.enum_map_snd]

/-! ### Strategy A treats the three envelope shapes identically -/

/-- Two responses that are equal up to envelope shape: both successful
with the same extracted goods content, or literally equal. -/
def respEquiv (r1 r2 : Resp) : Prop :=
  match r1, r2 with
  | Resp.ok p, Resp.ok q => extractA p = extractA q
  | a, b => a = b

theorem stepA_equiv (o1 o2 : Nat → Resp) (st : AState) (i : Nat)
    (b : List Nat) (h : respEquiv (o1 i) (o2 i)) :
    stepA o1 st i b = stepA o2 st i b := by
  unfold stepA
  rcases h1 : o1 i with p | _ | ra | s | _ <;>
    rcases h2 : o2 i with q | _ | rb | s2 | _ <;>
      rw [h1, h2] at h <;> simp_all [respEquiv, applyResp]

theorem foldA_equiv (o1 o2 : Nat → Resp)
    (he : ∀ i, respEquiv (o1 i) (o2 i)) :
    ∀ (ps : List (Nat × List Nat)) (st : AState),
      ps.foldl (fun s p => stepA o1 s p.1 p.2) st =
        ps.foldl (fun s p => stepA o2 s p.1 p.2) st := by
  intro ps
  induction ps with
  | nil => intro st; rfl
  | cons q t ih =>
    intro st
    simp only [List.foldl_cons]
    rw [stepA_equiv o1 o2 st q.1 q.2 (he q.1)]
    exact ih _

/-! ### Claim C6 -/

/-- Claim C6 as amended: Strategy A accepts all three envelope shapes
uniformly (the extraction is the same for identical content, and two
whole Strategy A runs against shape-differing but content-equal
environments are identical states); Strategy B however applies the
client-side filter only to the data.listGoods shape, accepts a data list
without filtering, and ignores a bare list. -/
theorem c6_envelope_shapes (gs : List Item) (aset : List String)
    (o1 o2 : Nat → Resp) (batches : List (List Nat)) :
    extractA (Payload.dataListGoods gs) = gs ∧
    extractA (Payload.dataList gs) = gs ∧
    extractA (Payload.bareList gs) = gs ∧
    ((∀ i, respEquiv (o1 i) (o2 i)) → runA o1 batches = runA o2 batches) ∧
    extractB (Payload.dataListGoods gs) aset =
      gs.filter (fun g => aset.contains (goodArticle g)) ∧
    extractB (Payload.dataList gs) aset = gs ∧
    extractB (Payload.bareList gs) aset = [] := by
  refine ⟨rfl, rfl, rfl, ?_, rfl, rfl, rfl⟩
  intro he
  unfold runA
  exact foldA_equiv o1 o2 he _ st0

/-- Claim C6 witness: two content-equal but shape-differing all-success
environments produce identical Strategy A runs. -/
theorem c6_witness :
    runA (fun _ => Resp.ok (Payload.bareList [goodAbc])) [[1]] =
      runA (fun _ => Resp.ok (Payload.dataList [goodAbc])) [[1]] :=
  (c6_envelope_shapes [] [] (fun _ => Resp.ok (Payload.bareList [goodAbc]))
    (fun _ => Resp.ok (Payload.dataList [goodAbc])) [[1]]).2.2.2.1
    (fun _ => rfl)

/-! ### Lemmas about the Strategy B filter key -/

theorem natDecimal_ne_nil (n : Nat) : natDecimal n ≠ [] := by
  unfold natDecimal
  show natDecimalAux (n + 1) n ≠ []
  simp only [natDecimalAux]
  split <;> simp

theorem natStr_ne_empty (n : Nat) : natStr n ≠ "" := by
  unfold natStr
  intro h
  have h3 : String.mk (natDecimal n) = String.mk [] := h
  injection h3 with h4
  exact natDecimal_ne_nil n h4

/-! ### Claim C7 -/

/-- Claim C7 as amended: the Strategy B filter computes a single key per
row — the first non-empty among str(vendorCode), str(nmID), str(nmId) —
and keeps the row iff that key is in the requested article set; in
particular a row with a non-empty vendor code is matched on the vendor
code alone, its marketplace id never being consulted (the
counterexample shows a row lost that way). -/
theorem c7_filter_key (gs : List Item) (aset : List String) (g : Item) :
    (g ∈ extractB (Payload.dataListGoods gs) aset ↔
      g ∈ gs ∧ aset.contains (goodArticle g) = true) ∧
    (∀ s, g.vendorCode = some s → s ≠ "" → goodArticle g = s) ∧
    ((g.vendorCode = none ∨ g.vendorCode = some "") →
      ∀ n, g.nmID = some n → goodArticle g = natStr n) ∧
    ((g.vendorCode = none ∨ g.vendorCode = some "") → g.nmID = none →
      ∀ n, g.nmId = some n → goodArticle g = natStr n) := by
  refine ⟨?_, ?_, ?_, ?_⟩
  · show g ∈ gs.filter (fun g2 => aset.contains (goodArticle g2)) ↔ _
    rw [List.mem_filter]
  · intro s hs hne
    unfold goodArticle
    rw [hs]
    show pyOrS s _ = s
    unfold pyOrS
    rw [if_neg hne]
  · intro hvc n hn
    unfold goodArticle
    rw [hn]
    rcases hvc with h | h <;> rw [h] <;>
      (show pyOrS "" (pyOrS (natStr n) _) = natStr n
       unfold pyOrS
       rw [if_pos rfl, if_neg (natStr_ne_empty n)])
  · intro hvc hnm n hn
    unfold goodArticle
    rw [hn, hnm]
    rcases hvc with h | h <;> rw [h] <;>
      (show pyOrS "" (pyOrS "" (natStr n)) = natStr n
       unfold pyOrS
       rw [if_pos rfl, if_pos rfl])

/-- Claim C7 witness: the amended theorem's membership characterization
at a concrete matching row. -/
theorem c7_witness :
    goodAbc ∈ extractB (Payload.dataListGoods [goodAbc]) ["abc"] :=
  (c7_filter_key [goodAbc] ["abc"] goodAbc).1.mpr ⟨by decide, by decide⟩

/-! ### Claim C10 -/

/-- Claim C10: the Authorization header value is the raw api key in both
branches of the Bearer-prefix check — the check changes nothing. -/
theorem c10_auth_header_is_raw_key (apiKey : String) :
    authHeader apiKey = apiKey := by
  unfold authHeader
  split <;> rfl

end MParsing
